import Mathlib

/-!
Verification development for the simple-rag-api repository.

JavaScript strings are modelled as `List Char` (a JS string is a sequence of
code units; `s.length`, `s.slice`, concatenation and `trim` become the
corresponding list operations).  Network calls (OpenAI, Qdrant) are modelled
by oracle parameters giving the settled outcome of each awaited call: a
rejected promise (including a lost timeout race) is an `Except.error`, a
fulfilled one an `Except.ok`.  `Math.random()` draws are modelled by an
explicit stream of real numbers.  Where a recursion consumes a computed
suffix of its input (so Lean's structural recursion does not apply), an
explicit fuel argument equal to the input length is threaded through; the
fuel-exhausted branches are unreachable for the actual call sites.
-/

/-- JS whitespace class `\s` (and the characters removed by `String.prototype.trim`),
restricted to the code points that can occur in the texts we reason about:
space, tab, newline, carriage return, vertical tab, form feed, NBSP. -/
def isJsWS (c : Char) : Bool :=
  c == ' ' || c == '\t' || c == '\n' || c == '\r' ||
  c == Char.ofNat 11 || c == Char.ofNat 12 || c == Char.ofNat 160

/-- `String.prototype.trim`: drop whitespace from both ends. -/
def jsTrim (s : List Char) : List Char :=
  (((s.dropWhile isJsWS).reverse.dropWhile isJsWS)).reverse

/-- `s.slice(-n)` for `0 ≤ n`: the last `n` characters — except that JS
`slice(-0)` is `slice(0)`, the whole string. -/
def jsSliceFromEnd (s : List Char) (n : Nat) : List Char :=
  if n = 0 then s else s.drop (s.length - n)

/-- Index of the last occurrence of `target` in the list, if any. -/
def lastIdxOf (target : Char) : List Char → Option Nat
  | [] => none
  | c :: rest =>
    match lastIdxOf target rest with
    | some i => some (i + 1)
    | none => if c = target then some 0 else none

/-- One splitting step of `text.split(/\n\s*\n/)` (documentProcessor.js:69):
having just read a `'\n'` with remainder `rest`, the greedy regex engine lets
`\s*` range over the whitespace run following it and backtracks so that the
match ends at the *last* newline inside that run.  Returns the index of that
final newline in `rest`, or `none` when no separator match starts here. -/
def sepRestEnd (rest : List Char) : Option Nat :=
  lastIdxOf '\n' (rest.takeWhile isJsWS)

/-- `text.split(/\n\s*\n/)` (documentProcessor.js:69), by a left-to-right scan.
`fuel` is an upper bound on the remaining input length making the recursion
structural; the `0` branch is unreachable when `fuel ≥ s.length`. -/
def splitParagraphsGo : Nat → List Char → List Char → List (List Char)
  | _, [], acc => [acc]
  | 0, s, acc => [acc ++ s]
  | fuel + 1, c :: rest, acc =>
    if c = '\n' then
      match sepRestEnd rest with
      | some k => acc :: splitParagraphsGo fuel (rest.drop (k + 1)) []
      | none => splitParagraphsGo fuel rest (acc ++ [c])
    else
      splitParagraphsGo fuel rest (acc ++ [c])

/-- The paragraph list of a text: `text.split(/\n\s*\n/)`. -/
def splitParagraphs (s : List Char) : List (List Char) :=
  splitParagraphsGo s.length s []

/-- Chunk metadata object built by the orchestrator (ragService, part_002:63-68)
and copied into every chunk (documentProcessor.js:79). -/
structure Metadata where
  source_file : String
  file_type : String
  created_at : String
  document_id : String
deriving DecidableEq

/-- A chunk as produced by `splitTextIntoChunks`: fresh id (`uuidv4()`),
trimmed content, copy of the metadata. -/
structure Chunk where
  id : String
  content : List Char
  metadata : Metadata
deriving DecidableEq

/-- `currentChunk += (currentChunk ? "\n\n" : "") + paragraph`
(documentProcessor.js:88): the empty string is falsy. -/
def appendParagraph (currentChunk paragraph : List Char) : List Char :=
  if 0 < currentChunk.length then currentChunk ++ '\n' :: '\n' :: paragraph
  else paragraph

/-- The paragraph loop of `splitTextIntoChunks` (documentProcessor.js:73-99).
`uuids` supplies the fresh `uuidv4()` ids in emission order, `n` counting the
chunks already emitted. -/
def chunkLoop (chunkSize overlap : Nat) (metadata : Metadata) (uuids : Nat → String) :
    List (List Char) → List Char → Nat → List Chunk
  | [], currentChunk, n =>
    if 0 < (jsTrim currentChunk).length then
      [⟨uuids n, jsTrim currentChunk, metadata⟩]
    else []
  | paragraph :: ps, currentChunk, n =>
    if chunkSize < currentChunk.length + paragraph.length ∧ 0 < currentChunk.length then
      let overlapText :=
        if overlap < currentChunk.length then jsSliceFromEnd currentChunk overlap
        else currentChunk
      ⟨uuids n, jsTrim currentChunk, metadata⟩ ::
        chunkLoop chunkSize overlap metadata uuids ps (overlapText ++ ' ' :: paragraph) (n + 1)
    else
      chunkLoop chunkSize overlap metadata uuids ps (appendParagraph currentChunk paragraph) n

/-- `splitTextIntoChunks(text, chunkSize, overlap, metadata)`
(documentProcessor.js:63-102).  Source defaults: `chunkSize = 1000`,
`overlap = 200`. -/
def splitTextIntoChunks (text : List Char) (chunkSize overlap : Nat)
    (metadata : Metadata) (uuids : Nat → String) : List Chunk :=
  if text.length = 0 then []
  else chunkLoop chunkSize overlap metadata uuids (splitParagraphs text) [] 0

theorem length_dropWhile_le (p : Char → Bool) (l : List Char) :
    (l.dropWhile p).length ≤ l.length := by
  induction l with
  | nil => simp
  | cons c rest ih =>
    simp only [List.dropWhile]
    split
    · exact Nat.le_trans ih (Nat.le_succ _)
    · exact Nat.le_refl _

theorem jsTrim_length_le (s : List Char) : (jsTrim s).length ≤ s.length := by
  unfold jsTrim
  calc ((s.dropWhile isJsWS).reverse.dropWhile isJsWS).reverse.length
      = ((s.dropWhile isJsWS).reverse.dropWhile isJsWS).length := List.length_reverse _
    _ ≤ (s.dropWhile isJsWS).reverse.length := length_dropWhile_le _ _
    _ = (s.dropWhile isJsWS).length := List.length_reverse _
    _ ≤ s.length := length_dropWhile_le _ _

theorem overlapText_length_le (cur : List Char) (overlap : Nat) (hov : 1 ≤ overlap) :
    (if overlap < cur.length then jsSliceFromEnd cur overlap else cur).length ≤ overlap := by
  split
  · unfold jsSliceFromEnd
    rw [if_neg (by omega)]
    rw [List.length_drop]
    omega
  · omega

/-- Loop invariant for the corrected chunk-size bound: as long as every pending
paragraph fits in `chunkSize` and the running buffer obeys the bound
`chunkSize + overlap + 1`, every emitted chunk obeys it too. -/
theorem chunkLoop_content_bound (chunkSize overlap : Nat) (metadata : Metadata)
    (uuids : Nat → String) (hov : 1 ≤ overlap) :
    ∀ (ps : List (List Char)) (cur : List Char) (n : Nat),
      (∀ p ∈ ps, p.length ≤ chunkSize) →
      cur.length ≤ chunkSize + overlap + 1 →
      ∀ c ∈ chunkLoop chunkSize overlap metadata uuids ps cur n,
        c.content.length ≤ chunkSize + overlap + 1 := by
  intro ps
  induction ps with
  | nil =>
    intro cur n _ hcur c hc
    simp only [chunkLoop] at hc
    split at hc
    · simp only [List.mem_singleton] at hc
      subst hc
      exact Nat.le_trans (jsTrim_length_le cur) hcur
    · simp at hc
  | cons p ps ih =>
    intro cur n hps hcur c hc
    have hp : p.length ≤ chunkSize := hps p (List.mem_cons_self _ _)
    have hps' : ∀ q ∈ ps, q.length ≤ chunkSize := fun q hq => hps q (List.mem_cons_of_mem _ hq)
    simp only [chunkLoop] at hc
    split at hc
    · rename_i hcond
      simp only [List.mem_cons] at hc
      rcases hc with hc | hc
      · subst hc
        exact Nat.le_trans (jsTrim_length_le cur) hcur
      · refine ih _ _ hps' ?_ c hc
        have hslice := overlapText_length_le cur overlap hov
        simp only [List.length_append, List.length_cons]
        omega
    · rename_i hcond
      refine ih _ _ hps' ?_ c hc
      unfold appendParagraph
      split
      · rename_i hne
        have : cur.length + p.length ≤ chunkSize := by
          by_contra hgt
          exact hcond ⟨by omega, hne⟩
        simp only [List.length_append, List.length_cons]
        omega
      · simpa using Nat.le_trans hp (by omega)

/-- Sample metadata object used to instantiate concrete runs of the chunker. -/
def mdDemo : Metadata :=
  ⟨"demo.txt", "text", "2026-01-01T00:00:00Z", "doc-demo"⟩

/-- Sample uuid supply used to instantiate concrete runs of the chunker. -/
def uuidsDemo : Nat → String := fun _ => "11111111-1111-1111-1111-111111111111"

/-- Ten `'a'`s, a blank line, ten `'b'`s: both paragraphs have length 10. -/
def textAB : List Char :=
  List.replicate 10 'a' ++ '\n' :: '\n' :: List.replicate 10 'b'

/-- Claim C3 (amended): if `overlap ≥ 1` and no single paragraph of the input
is longer than `chunkSize`, every chunk emitted by `splitTextIntoChunks` has
content of length at most `chunkSize + overlap + 1` (the extra `+ 1` is the
space joining the overlap text to the next paragraph,
documentProcessor.js:85).  For `overlap = 0` no additive bound holds at all,
because JS `slice(-0)` returns the whole buffer, so the new buffer starts with
the entire previous chunk. -/
theorem splitTextIntoChunks_content_bound (text : List Char) (chunkSize overlap : Nat)
    (metadata : Metadata) (uuids : Nat → String) (hov : 1 ≤ overlap)
    (hp : ∀ p ∈ splitParagraphs text, p.length ≤ chunkSize) :
    ∀ c ∈ splitTextIntoChunks text chunkSize overlap metadata uuids,
      c.content.length ≤ chunkSize + overlap + 1 := by
  intro c hc
  unfold splitTextIntoChunks at hc
  split at hc
  · simp at hc
  · exact chunkLoop_content_bound chunkSize overlap metadata uuids hov
      (splitParagraphs text) [] 0 hp (by simp) c hc

/-- Claim C3, counterexample to the claim as stated: with `chunkSize = 10` and
`overlap = 2`, the input `textAB` has no paragraph longer than `chunkSize`,
yet the second emitted chunk (`"aa bbbbbbbbbb"`, overlap text + joining space
+ paragraph) has length 13 > chunkSize + overlap = 12. -/
theorem splitTextIntoChunks_exceeds_claimed_bound :
    (∀ p ∈ splitParagraphs textAB, p.length ≤ 10) ∧
    ¬ (∀ c ∈ splitTextIntoChunks textAB 10 2 mdDemo uuidsDemo,
        c.content.length ≤ 10 + 2) := by
  constructor
  · decide
  · decide

/-- Minimal number of characters of input text needed to produce a given
paragraph list: each separator matched by `/\n\s*\n/` is at least 2 characters
long. -/
def paraWeight : List (List Char) → Nat
  | [] => 0
  | [p] => p.length
  | p :: q :: ps => p.length + 2 + paraWeight (q :: ps)

theorem paraWeight_cons (a : List Char) (L : List (List Char)) (h : L ≠ []) :
    paraWeight (a :: L) = a.length + 2 + paraWeight L := by
  cases L with
  | nil => exact absurd rfl h
  | cons q ps => rfl

theorem length_takeWhile_le (p : Char → Bool) (l : List Char) :
    (l.takeWhile p).length ≤ l.length := by
  induction l with
  | nil => simp
  | cons c rest ih =>
    simp only [List.takeWhile]
    split
    · simpa using ih
    · simp

theorem lastIdxOf_lt (target : Char) (l : List Char) (k : Nat)
    (h : lastIdxOf target l = some k) : k < l.length := by
  induction l generalizing k with
  | nil => simp [lastIdxOf] at h
  | cons c rest ih =>
    cases hrec : lastIdxOf target rest with
    | none =>
      simp only [lastIdxOf, hrec] at h
      split at h
      · simp only [Option.some.injEq] at h
        subst h
        simp
      · exact absurd h (by simp)
    | some i =>
      simp only [lastIdxOf, hrec, Option.some.injEq] at h
      subst h
      have := ih i hrec
      simp only [List.length_cons]
      omega

theorem splitParagraphsGo_ne_nil (fuel : Nat) (s acc : List Char) :
    splitParagraphsGo fuel s acc ≠ [] := by
  induction fuel generalizing s acc with
  | zero => cases s <;> simp [splitParagraphsGo]
  | succ fuel ih =>
    cases s with
    | nil => simp [splitParagraphsGo]
    | cons c rest =>
      simp only [splitParagraphsGo]
      split
      · rcases h : sepRestEnd rest with _ | k
        · simpa using ih rest (acc ++ [c])
        · simp
      · exact ih rest (acc ++ [c])

/-- The paragraphs of a text account for at most its length, counting each
separator as 2 characters (a separator `\n\s*\n` has length ≥ 2). -/
theorem paraWeight_splitParagraphsGo_le (fuel : Nat) :
    ∀ (s acc : List Char), s.length ≤ fuel →
      paraWeight (splitParagraphsGo fuel s acc) ≤ acc.length + s.length := by
  induction fuel with
  | zero =>
    intro s acc hs
    have : s = [] := List.length_eq_zero.mp (Nat.le_zero.mp hs)
    subst this
    simp [splitParagraphsGo, paraWeight]
  | succ fuel ih =>
    intro s acc hs
    cases s with
    | nil => simp [splitParagraphsGo, paraWeight]
    | cons c rest =>
      simp only [splitParagraphsGo]
      split
      · rcases h : sepRestEnd rest with _ | k
        · have := ih rest (acc ++ [c]) (by simp at hs ⊢; omega)
          simp only [List.length_append, List.length_singleton] at this
          simp only [List.length_cons]
          omega
        · have hk : k < rest.length := by
            have := lastIdxOf_lt '\n' (rest.takeWhile isJsWS) k h
            have := length_takeWhile_le isJsWS rest
            omega
          have hrec := ih (rest.drop (k + 1)) []
            (by simp only [List.length_drop]; simp at hs; omega)
          rw [paraWeight_cons acc _ (splitParagraphsGo_ne_nil _ _ _)]
          simp only [List.length_nil, Nat.zero_add] at hrec
          simp only [List.length_drop] at hrec
          simp only [List.length_cons]
          omega
      · have := ih rest (acc ++ [c]) (by simp at hs ⊢; omega)
        simp only [List.length_append, List.length_singleton] at this
        simp only [List.length_cons]
        omega

/-- The buffer produced by folding `appendParagraph` over the paragraph list:
this is exactly what `currentChunk` holds when the loop of
`splitTextIntoChunks` never closes a chunk early. -/
def joinFold (ps : List (List Char)) (cur : List Char) : List Char :=
  ps.foldl appendParagraph cur

theorem appendParagraph_len_ge (cur p : List Char) :
    cur.length + p.length ≤ (appendParagraph cur p).length := by
  unfold appendParagraph
  split
  · simp only [List.length_append, List.length_cons]
    omega
  · rename_i h
    simp only [Nat.not_lt, Nat.le_zero] at h
    simp [h]

theorem joinFold_len_ge (ps : List (List Char)) :
    ∀ cur : List Char, cur.length ≤ (joinFold ps cur).length := by
  induction ps with
  | nil => intro cur; simp [joinFold]
  | cons p ps ih =>
    intro cur
    have h1 := appendParagraph_len_ge cur p
    have h2 := ih (appendParagraph cur p)
    simp only [joinFold, List.foldl_cons] at h2 ⊢
    omega

theorem joinFold_len_ge_head (ps : List (List Char)) (cur p : List Char) :
    cur.length + p.length ≤ (joinFold (p :: ps) cur).length := by
  have h1 := appendParagraph_len_ge cur p
  have h2 := joinFold_len_ge ps (appendParagraph cur p)
  simp only [joinFold, List.foldl_cons] at h2 ⊢
  omega

theorem appendParagraph_of_ne (cur p : List Char) (h : cur ≠ []) :
    appendParagraph cur p = cur ++ '\n' :: '\n' :: p := by
  unfold appendParagraph
  rw [if_pos (List.length_pos.mpr h)]

theorem joinFold_len_le_ne (ps : List (List Char)) :
    ∀ cur : List Char, cur ≠ [] →
      (joinFold ps cur).length ≤ cur.length + 2 + paraWeight ps := by
  induction ps with
  | nil =>
    intro cur _
    simp only [joinFold, List.foldl_nil, paraWeight]
    omega
  | cons p rest ih =>
    intro cur hcur
    have hstep : joinFold (p :: rest) cur = joinFold rest (cur ++ '\n' :: '\n' :: p) := by
      simp only [joinFold, List.foldl_cons, appendParagraph_of_ne cur p hcur]
    rw [hstep]
    cases rest with
    | nil =>
      simp only [joinFold, List.foldl_nil, paraWeight, List.length_append, List.length_cons]
      omega
    | cons q qs =>
      have hrec := ih (cur ++ '\n' :: '\n' :: p) (by simp)
      rw [paraWeight_cons p _ (by simp)]
      simp only [List.length_append, List.length_cons] at hrec
      omega

theorem joinFold_nil_le (ps : List (List Char)) :
    (joinFold ps []).length ≤ paraWeight ps := by
  induction ps with
  | nil => simp [joinFold, paraWeight]
  | cons p rest ih =>
    have hstep : joinFold (p :: rest) [] = joinFold rest p := rfl
    rw [hstep]
    by_cases hp : p = []
    · subst hp
      cases rest with
      | nil => simp [joinFold, paraWeight]
      | cons q qs =>
        rw [paraWeight_cons [] _ (by simp)]
        simp only [List.length_nil]
        omega
    · cases rest with
      | nil =>
        simp [joinFold, paraWeight]
      | cons q qs =>
        have h2 := joinFold_len_le_ne (q :: qs) p hp
        rw [paraWeight_cons p _ (by simp)]
        omega

/-- When the whole joined text fits in `chunkSize`, the loop never closes a
chunk early and emits (at most) one final chunk: the trimmed join. -/
theorem chunkLoop_small (chunkSize overlap : Nat) (metadata : Metadata)
    (uuids : Nat → String) :
    ∀ (ps : List (List Char)) (cur : List Char) (n : Nat),
      (joinFold ps cur).length ≤ chunkSize →
      chunkLoop chunkSize overlap metadata uuids ps cur n =
        (if 0 < (jsTrim (joinFold ps cur)).length then
          [⟨uuids n, jsTrim (joinFold ps cur), metadata⟩]
        else []) := by
  intro ps
  induction ps with
  | nil => intro cur n _; rfl
  | cons p ps ih =>
    intro cur n h
    have hhead := joinFold_len_ge_head ps cur p
    simp only [chunkLoop]
    rw [if_neg (by omega)]
    have hstep : joinFold (p :: ps) cur = joinFold ps (appendParagraph cur p) := rfl
    rw [hstep] at h ⊢
    exact ih (appendParagraph cur p) n h

/-- Claim C4 (amended): `splitTextIntoChunks` on the empty string returns `[]`;
for non-empty text shorter than `chunkSize` it emits no chunk when the text is
all whitespace, and otherwise exactly one chunk whose content is the *trim of
the paragraphs rejoined with `"\n\n"`* — equal to the trimmed input only when
every separator matched by `/\n\s*\n/` is literally `"\n\n"`. -/
theorem splitTextIntoChunks_short (text : List Char) (chunkSize overlap : Nat)
    (metadata : Metadata) (uuids : Nat → String)
    (hne : text ≠ []) (hlt : text.length < chunkSize) :
    splitTextIntoChunks text chunkSize overlap metadata uuids =
      (if 0 < (jsTrim (joinFold (splitParagraphs text) [])).length then
        [⟨uuids 0, jsTrim (joinFold (splitParagraphs text) []), metadata⟩]
      else []) ∧
    splitTextIntoChunks [] chunkSize overlap metadata uuids = [] := by
  constructor
  · unfold splitTextIntoChunks
    rw [if_neg (by simpa using fun h => hne (List.length_eq_zero.mp h))]
    refine chunkLoop_small chunkSize overlap metadata uuids (splitParagraphs text) [] 0 ?_
    have h1 := joinFold_nil_le (splitParagraphs text)
    have h2 : paraWeight (splitParagraphs text) ≤ text.length := by
      have := paraWeight_splitParagraphsGo_le text.length text [] (Nat.le_refl _)
      simpa [splitParagraphs] using this
    omega
  · rfl

/-- The separator of this 5-character text is `"\n \n"`, not `"\n\n"`. -/
def textSpaced : List Char := ['a', '\n', ' ', '\n', 'b']

/-- Claim C4, counterexample to the claim as stated: on the non-empty input
`"a\n \nb"` (5 characters, shorter than `chunkSize = 1000`) the single chunk
produced has content `"a\n\nb"` — the separator was normalized to a blank
line — which differs from the trimmed input `"a\n \nb"`. -/
theorem splitTextIntoChunks_short_not_trimmed_input :
    textSpaced ≠ [] ∧ textSpaced.length < 1000 ∧
    (splitTextIntoChunks textSpaced 1000 200 mdDemo uuidsDemo).map Chunk.content
      = [['a', '\n', '\n', 'b']] ∧
    ¬ (splitTextIntoChunks textSpaced 1000 200 mdDemo uuidsDemo).map Chunk.content
      = [jsTrim textSpaced] := by
  refine ⟨by decide, by decide, by decide, by decide⟩

/-- Claim C4, witness for the amended statement at the concrete input `"hi"`. -/
theorem splitTextIntoChunks_short_witness :
    (['h', 'i'] : List Char) ≠ [] ∧ (['h', 'i'] : List Char).length < 1000 ∧
    (splitTextIntoChunks ['h', 'i'] 1000 200 mdDemo uuidsDemo =
      (if 0 < (jsTrim (joinFold (splitParagraphs ['h', 'i']) [])).length then
        [⟨uuidsDemo 0, jsTrim (joinFold (splitParagraphs ['h', 'i']) []), mdDemo⟩]
      else []) ∧
    splitTextIntoChunks [] 1000 200 mdDemo uuidsDemo = []) :=
  ⟨by decide, by decide,
    splitTextIntoChunks_short ['h', 'i'] 1000 200 mdDemo uuidsDemo (by decide) (by decide)⟩

/-- Claim C3, witness for the amended bound at a concrete input: on `textAB`
with `chunkSize = 10`, `overlap = 2`, every chunk has content length at most
13. -/
theorem splitTextIntoChunks_content_bound_witness :
    1 ≤ 2 ∧ (∀ p ∈ splitParagraphs textAB, p.length ≤ 10) ∧
    (∀ c ∈ splitTextIntoChunks textAB 10 2 mdDemo uuidsDemo,
      c.content.length ≤ 10 + 2 + 1) :=
  ⟨by decide, by decide,
    splitTextIntoChunks_content_bound textAB 10 2 mdDemo uuidsDemo (by decide) (by decide)⟩

/-!  Embedding client (documentProcessor.js:104-184).  JS floating-point
numbers are idealized as real numbers; the `Math.random() * 2 - 1` draws of
`generateMockEmbedding` are modelled by an explicit stream `draws`. -/

/-- `generateMockEmbedding(dimensions = 1536)` (documentProcessor.js:109-116):
build a vector of `dimensions` random values, compute its magnitude
`sqrt(Σ val²)` and divide every entry by it. -/
noncomputable def generateMockEmbedding (draws : Nat → ℝ) (dimensions : Nat := 1536) : List ℝ :=
  ((List.range dimensions).map draws).map
    (fun val => val / Real.sqrt ((((List.range dimensions).map draws).map
      (fun val => val * val)).sum))

/-- Euclidean norm of a vector, `sqrt(Σ x²)`. -/
noncomputable def l2norm (v : List ℝ) : ℝ :=
  Real.sqrt ((v.map (fun x => x * x)).sum)

theorem generateMockEmbedding_length (draws : Nat → ℝ) (dimensions : Nat) :
    (generateMockEmbedding draws dimensions).length = dimensions := by
  simp [generateMockEmbedding]

theorem sum_sq_map_div (l : List ℝ) (c : ℝ) :
    ((l.map (fun x => x / c)).map (fun x => x * x)).sum
      = ((l.map (fun x => x * x)).sum) / (c * c) := by
  induction l with
  | nil => simp
  | cons a l ih =>
    simp only [List.map_cons, List.sum_cons, ih, div_mul_div_comm, add_div]

theorem sum_map_const_zero (l : List Nat) : (l.map (fun _ => (0 : ℝ))).sum = 0 := by
  induction l with
  | nil => simp
  | cons a l ih => simp [ih]

/-- Claim C9 (amended): `generateMockEmbedding` always returns a vector of
length 1536, and that vector has unit L2 norm whenever at least one of the
1536 random draws is nonzero.  (If every draw is exactly 0 — possible, since
`Math.random() * 2 - 1` can yield 0 — the magnitude is 0 and normalization
degenerates.) -/
theorem generateMockEmbedding_unit_norm (draws : Nat → ℝ) (i : Nat)
    (hi : i < 1536) (hnz : draws i ≠ 0) :
    (generateMockEmbedding draws 1536).length = 1536 ∧
    l2norm (generateMockEmbedding draws 1536) = 1 := by
  refine ⟨generateMockEmbedding_length draws 1536, ?_⟩
  have hmem : draws i ∈ (List.range 1536).map draws :=
    List.mem_map_of_mem draws (List.mem_range.mpr hi)
  have hsq_mem : draws i * draws i
      ∈ ((List.range 1536).map draws).map (fun x => x * x) :=
    List.mem_map_of_mem _ hmem
  have hnn : ∀ x ∈ ((List.range 1536).map draws).map (fun x => x * x), 0 ≤ x := by
    intro x hx
    rcases List.mem_map.mp hx with ⟨a, _, rfl⟩
    exact mul_self_nonneg a
  have hS : 0 < (((List.range 1536).map draws).map (fun x => x * x)).sum :=
    lt_of_lt_of_le (mul_self_pos.mpr hnz) (List.single_le_sum hnn _ hsq_mem)
  unfold l2norm generateMockEmbedding
  rw [sum_sq_map_div, Real.mul_self_sqrt hS.le, div_self hS.ne']
  exact Real.sqrt_one

/-- Claim C9, counterexample to the claim as stated: when every random draw
is 0 the magnitude is 0 and the resulting vector is all zeros (JS would give
NaN entries; in the real-number idealization `0 / 0 = 0`), so its L2 norm is
0, not 1. -/
theorem generateMockEmbedding_zero_draws_not_unit :
    ¬ l2norm (generateMockEmbedding (fun _ => 0) 1536) = 1 := by
  have hz : (((List.range 1536).map (fun _ : Nat => (0 : ℝ))).map
      (fun x => x * x)).sum = 0 := by
    rw [List.map_map]
    have hfun : ((fun x => x * x) ∘ (fun _ : Nat => (0 : ℝ))) = (fun _ : Nat => (0 : ℝ)) := by
      funext n
      simp
    rw [hfun, sum_map_const_zero]
  have h0 : l2norm (generateMockEmbedding (fun _ => 0) 1536) = 0 := by
    unfold l2norm generateMockEmbedding
    rw [sum_sq_map_div, hz, zero_div, Real.sqrt_zero]
  rw [h0]
  norm_num

/-- Claim C9, witness for the amended statement: with the draw stream that is
1 at index 0 and 0 elsewhere, the mock embedding has length 1536 and unit
norm. -/
theorem generateMockEmbedding_unit_norm_witness :
    (0 : Nat) < 1536 ∧ (fun n : Nat => if n = 0 then (1 : ℝ) else 0) 0 ≠ 0 ∧
    ((generateMockEmbedding (fun n => if n = 0 then (1 : ℝ) else 0) 1536).length = 1536 ∧
      l2norm (generateMockEmbedding (fun n => if n = 0 then (1 : ℝ) else 0) 1536) = 1) :=
  ⟨by norm_num, by norm_num,
    generateMockEmbedding_unit_norm (fun n => if n = 0 then (1 : ℝ) else 0) 0
      (by norm_num) (by norm_num)⟩

/-- Outcome of one awaited embedding attempt: the settled result of
`Promise.race([embedPromise, timeoutPromise])` (documentProcessor.js:139-150).
A timeout loss settles as `err "Embedding request timed out after ...ms"`. -/
inductive AttemptOutcome where
  | ok (embedding : List ℝ)
  | err (message : List Char)

/-- `haystack.includes(needle)` for strings. -/
def containsSub (s pat : List Char) : Bool :=
  (List.range (s.length + 1)).any (fun i => pat.isPrefixOf (s.drop i))

/-- Rate-limit classification of an error (documentProcessor.js:158-162). -/
def isRateLimitError (message : List Char) : Bool :=
  containsSub message ("rate limit".data) || containsSub message ("429".data) ||
  containsSub message ("too many requests".data)

/-- Backoff wait before the next retry (documentProcessor.js:175-176):
`min(base * 2^(attempt-1), 15000)` with base 2000 for rate-limit errors and
1000 otherwise. -/
def backoffWaitMs (isRateLimit : Bool) (attempt : Nat) : Nat :=
  min ((if isRateLimit then 2000 else 1000) * 2 ^ (attempt - 1)) 15000

/-- `text.replace(/\n+/g, ' ')`: collapse every run of newlines to one space.
`fuel` bounds the remaining input length (structural recursion); the `0`
branch is unreachable when `fuel ≥ s.length`. -/
def collapseNewlineRuns : Nat → List Char → List Char
  | _, [] => []
  | 0, s => s
  | fuel + 1, c :: rest =>
    if c = '\n' then ' ' :: collapseNewlineRuns fuel (rest.dropWhile (fun d => d = '\n'))
    else c :: collapseNewlineRuns fuel rest

/-- The input actually sent to the provider (documentProcessor.js:146):
`text.trim().replace(/\n+/g, ' ').slice(0, 8000)`. -/
def prepareEmbeddingInput (text : List Char) : List Char :=
  (collapseNewlineRuns (jsTrim text).length (jsTrim text)).take 8000

/-- The retry loop of `generateEmbedding` (documentProcessor.js:128-180),
counted by `remaining` = `retries - attempt + 1`, the number of loop
iterations still to run (so `remaining = 0` is the fall-through after the
loop, documentProcessor.js:183, and `remaining = 1` means
`attempt === retries`).  `draws attempt` is the random stream consumed by a
mock embedding generated during iteration `attempt`. -/
noncomputable def generateEmbeddingLoop (openaiConfigured : Bool)
    (attempts : Nat → AttemptOutcome) (draws : Nat → Nat → ℝ) :
    Nat → Nat → List ℝ
  | _attempt, 0 => generateMockEmbedding (draws 0)
  | attempt, remaining + 1 =>
    if openaiConfigured = false then generateMockEmbedding (draws attempt)
    else
      match attempts attempt with
      | .ok v => v
      | .err message =>
        if remaining = 0 then generateMockEmbedding (draws attempt)
        else
          let _waitTime := backoffWaitMs (isRateLimitError message) attempt
          generateEmbeddingLoop openaiConfigured attempts draws (attempt + 1) remaining

/-- `generateEmbedding(text, retries = 3, timeoutMs = 10000)`
(documentProcessor.js:125-184).  `openaiConfigured` models the presence of
`OPENAI_API_KEY`; `attemptOutcome n inp` the settled outcome of the nth
attempt's race when `inp` is sent; the timeout only manifests through a
timed-out attempt outcome, so `_timeoutMs` does not otherwise affect the
result. -/
noncomputable def generateEmbedding (text : List Char) (openaiConfigured : Bool)
    (attemptOutcome : Nat → List Char → AttemptOutcome) (draws : Nat → Nat → ℝ)
    (retries : Nat := 3) (_timeoutMs : Nat := 10000) : List ℝ :=
  generateEmbeddingLoop openaiConfigured
    (fun attempt => attemptOutcome attempt (prepareEmbeddingInput text)) draws 1 retries

theorem generateEmbeddingLoop_length (openaiConfigured : Bool)
    (attempts : Nat → AttemptOutcome) (draws : Nat → Nat → ℝ)
    (h : ∀ n v, attempts n = .ok v → v.length = 1536) :
    ∀ (remaining attempt : Nat),
      (generateEmbeddingLoop openaiConfigured attempts draws attempt remaining).length = 1536 := by
  intro remaining
  induction remaining with
  | zero =>
    intro attempt
    simp [generateEmbeddingLoop, generateMockEmbedding_length]
  | succ r ih =>
    intro attempt
    simp only [generateEmbeddingLoop]
    by_cases hcfg : openaiConfigured = false
    · rw [if_pos hcfg]
      exact generateMockEmbedding_length _ _
    · rw [if_neg hcfg]
      cases hatt : attempts attempt with
      | ok v =>
        simp only [hatt]
        exact h attempt v hatt
      | err m =>
        simp only [hatt]
        by_cases hr : r = 0
        · rw [if_pos hr]
          exact generateMockEmbedding_length _ _
        · rw [if_neg hr]
          exact ih (attempt + 1)

theorem generateEmbeddingLoop_allerr (attempts : Nat → AttemptOutcome)
    (draws : Nat → Nat → ℝ) (h : ∀ n v, attempts n ≠ .ok v) :
    ∀ (remaining attempt : Nat), 1 ≤ remaining →
      generateEmbeddingLoop true attempts draws attempt remaining
        = generateMockEmbedding (draws (attempt + remaining - 1)) := by
  intro remaining
  induction remaining with
  | zero => intro attempt h1; omega
  | succ r ih =>
    intro attempt _
    simp only [generateEmbeddingLoop]
    rw [if_neg (by simp)]
    cases hatt : attempts attempt with
    | ok v => exact absurd hatt (h attempt v)
    | err m =>
      simp only [hatt]
      by_cases hr : r = 0
      · subst hr
        rw [if_pos rfl]
        have : attempt + (0 + 1) - 1 = attempt := by omega
        rw [this]
      · rw [if_neg hr]
        have hrec := ih (attempt + 1) (by omega)
        have harith : attempt + 1 + r - 1 = attempt + (r + 1) - 1 := by omega
        rw [harith] at hrec
        exact hrec

/-- Claim C5: `generateEmbedding` always resolves — every control path returns
a vector, so the model is a total function — and the vector has length 1536
whatever the provider configuration and whatever the attempt outcomes
(provider successes are length-1536 per the provider contract, every failure
path falls back to a 1536-dimensional mock).  Moreover when every attempt
fails, the result is exactly the mock embedding generated at the final
attempt, not an error. -/
theorem generateEmbedding_length_and_fallback (text : List Char)
    (openaiConfigured : Bool) (attemptOutcome : Nat → List Char → AttemptOutcome)
    (draws : Nat → Nat → ℝ) (retries timeoutMs : Nat)
    (hlen : ∀ n inp v, attemptOutcome n inp = .ok v → v.length = 1536)
    (hr : 1 ≤ retries) :
    (generateEmbedding text openaiConfigured attemptOutcome draws retries timeoutMs).length = 1536
    ∧ ((∀ n inp v, attemptOutcome n inp ≠ .ok v) →
        generateEmbedding text true attemptOutcome draws retries timeoutMs
          = generateMockEmbedding (draws retries)) := by
  constructor
  · exact generateEmbeddingLoop_length openaiConfigured _ draws
      (fun n v hv => hlen n _ v hv) retries 1
  · intro hne
    have h := generateEmbeddingLoop_allerr
      (fun attempt => attemptOutcome attempt (prepareEmbeddingInput text)) draws
      (fun n v => hne n _ v) retries 1 hr
    have harith : 1 + retries - 1 = retries := by omega
    rw [harith] at h
    exact h

/-- Attempt oracle in which every attempt loses the timeout race. -/
def attemptAlwaysTimedOut : Nat → List Char → AttemptOutcome :=
  fun _ _ => AttemptOutcome.err ("Embedding request timed out after 10000ms".data)

/-- All-zero random stream for the mock embeddings of the C5 witness. -/
def drawsZero : Nat → Nat → ℝ := fun _ _ => 0

/-- Claim C5, witness: with no key configured (and separately with a key but
every attempt timing out), `generateEmbedding` at `retries = 3` returns a
length-1536 vector; exhaustion returns the final-attempt mock. -/
theorem generateEmbedding_length_and_fallback_witness :
    (∀ n inp v, attemptAlwaysTimedOut n inp = AttemptOutcome.ok v → v.length = 1536)
    ∧ (1 : Nat) ≤ 3
    ∧ ((generateEmbedding ("hello".data) false attemptAlwaysTimedOut drawsZero 3 10000).length = 1536
       ∧ ((∀ n inp v, attemptAlwaysTimedOut n inp ≠ AttemptOutcome.ok v) →
           generateEmbedding ("hello".data) true attemptAlwaysTimedOut drawsZero 3 10000
             = generateMockEmbedding (drawsZero 3))) :=
  ⟨fun _ _ v h => AttemptOutcome.noConfusion h, by norm_num,
    generateEmbedding_length_and_fallback ("hello".data) false attemptAlwaysTimedOut
      drawsZero 3 10000 (fun _ _ v h => AttemptOutcome.noConfusion h) (by norm_num)⟩

/-!  Vector store (vectorStore.js).  The Qdrant client is an external
collaborator: each awaited client call's settled outcome is an oracle
parameter (`Except.error` = rejected promise, including a lost timeout race).
Embedding vectors are treated generically (type `V`). -/

/-- Stored point payload (vectorStore.js:120-124): original chunk id, chunk
content, spread of the chunk metadata.  Fields are optional because search
results come back from the external store, which may hold points without
them. -/
structure Payload where
  original_id : Option String := none
  content : List Char := []
  source_file : Option String := none
  file_type : Option String := none
  created_at : Option String := none
  document_id : Option String := none
deriving DecidableEq

/-- `{...result.payload, content: undefined}` (vectorStore.js:194-197): the
payload with the duplicated content field removed. -/
structure PayloadMeta where
  original_id : Option String
  source_file : Option String
  file_type : Option String
  created_at : Option String
  document_id : Option String
deriving DecidableEq

def stripContent (p : Payload) : PayloadMeta :=
  ⟨p.original_id, p.source_file, p.file_type, p.created_at, p.document_id⟩

/-- A scored point as returned by `client.search`. -/
structure ScoredPoint where
  id : String
  payload : Payload
  score : ℚ
deriving DecidableEq

/-- A search result in the store's own interface (vectorStore.js:191-199). -/
structure SearchResult where
  id : String
  content : List Char
  metadata : PayloadMeta
  score : ℚ
deriving DecidableEq

/-- JS `a || b` for an optional string `a`: falls back when `a` is absent
*or* the empty string (both are falsy). -/
def jsOrString (a : Option String) (b : String) : String :=
  match a with
  | some s => if s = "" then b else s
  | none => b

/-- `search(collectionName, queryEmbedding, limit = 5, minScore = 0.7,
timeoutMs = 30000)` (vectorStore.js:160-205).  `getCollectionsResult` is the
outcome of the awaited `client.getCollections()`; `clientSearch qv limit
minScore` the outcome of the race between `client.search` (issued with
`limit` and `score_threshold := minScore`) and the timeout timer.  Every
rejection is caught by the surrounding catch, which returns `[]`. -/
def search {V : Type} (getCollectionsResult : Except String (List String))
    (clientSearch : V → Nat → ℚ → Except String (List ScoredPoint))
    (collectionName : String) (queryEmbedding : V)
    (limit : Nat := 5) (minScore : ℚ := 7 / 10) : List SearchResult :=
  match getCollectionsResult with
  | .error _ => []
  | .ok collections =>
    if collectionName ∈ collections then
      match clientSearch queryEmbedding limit minScore with
      | .error _ => []
      | .ok searchResult =>
        searchResult.map (fun result =>
          { id := jsOrString result.payload.original_id result.id
            content := result.payload.content
            metadata := stripContent result.payload
            score := result.score })
    else []

/-- Claim C6: `search` on a collection that does not exist returns `[]`
rather than raising an error, and every lookup failure — the collection
listing rejecting, or the search race settling with an error (timeout
included) — also yields `[]` rather than a propagated error. -/
theorem search_missing_or_failed_empty {V : Type} (collections : List String)
    (collectionName : String) (queryEmbedding : V)
    (clientSearch : V → Nat → ℚ → Except String (List ScoredPoint))
    (limit : Nat) (minScore : ℚ) (e1 e2 : String)
    (h : collectionName ∉ collections) :
    search (.ok collections) clientSearch collectionName queryEmbedding limit minScore = []
    ∧ search (.error e1) clientSearch collectionName queryEmbedding limit minScore = []
    ∧ (∀ gc : Except String (List String),
        search gc (fun _ _ _ => .error e2) collectionName queryEmbedding limit minScore = []) := by
  refine ⟨?_, rfl, ?_⟩
  · simp [search, h]
  · intro gc
    cases gc with
    | error e => rfl
    | ok cols =>
      by_cases hc : collectionName ∈ cols <;> simp [search, hc]

/-- Claim C6, witness at concrete inputs: searching `global_documents` when
only `other` exists yields `[]`, as does a rejected collection listing and a
timed-out search. -/
theorem search_missing_or_failed_empty_witness :
    ("global_documents" ∉ ["other"]) ∧
    (search (.ok ["other"]) (fun _ _ _ => .ok []) "global_documents" (() : Unit) 5 (7 / 10) = []
    ∧ search (.error "connection refused") (fun _ _ _ => .ok []) "global_documents" (() : Unit) 5 (7 / 10) = []
    ∧ (∀ gc : Except String (List String),
        search gc (fun _ _ _ => .error "Search operation timed out after 30000ms")
          "global_documents" (() : Unit) 5 (7 / 10) = [])) :=
  ⟨by decide,
    search_missing_or_failed_empty ["other"] "global_documents" ()
      (fun _ _ _ => .ok []) 5 (7 / 10) "connection refused"
      "Search operation timed out after 30000ms" (by decide)⟩

/-!  `processFile` (documentProcessor.js:194-265).  `extractTextFromFile`
performs file I/O and never rejects (every fault is caught and turned into a
placeholder string, documentProcessor.js:50-53); its result is supplied as
`extractedText`.  The per-chunk embedding call is supplied as `embedFn` (in
the source, `generateEmbedding`, which is total — claim C5); embedding
entries are treated generically (type `V`). -/

/-- A chunk together with its embedding, `{...chunk, embedding}`
(documentProcessor.js:240).  `embeddingError` is set only when the awaited
`generateEmbedding` call rejects (documentProcessor.js:244-248), which the
total model of `generateEmbedding` never does. -/
structure EmbeddedChunk (V : Type) where
  chunk : Chunk
  embedding : V
  embeddingError : Option String := none
deriving DecidableEq

/-- The batch loop of `processFile` (documentProcessor.js:224-255): slices of
`BATCH_SIZE = 5` chunks are embedded batch by batch (within a batch the
results are reassembled in original order by `Promise.all`) and appended in
order.  `fuel` bounds the remaining list length (structural recursion); the
`0` branch is unreachable when `fuel ≥ chunks.length`. -/
def processBatches {V : Type} (embedFn : List Char → V) :
    Nat → List Chunk → List (EmbeddedChunk V)
  | _, [] => []
  | 0, _ => []
  | fuel + 1, c :: rest =>
    ((c :: rest).take 5).map (fun ch => ⟨ch, embedFn ch.content, none⟩)
      ++ processBatches embedFn fuel ((c :: rest).drop 5)

/-- `processFile(filePath, fileType, metadata, maxChunks = 25)`
(documentProcessor.js:194-265): chunk the extracted text with the hard-coded
`chunkSize = 1000`, `overlap = 200`, truncate to the first `maxChunks` chunks
when there are more, then embed in batches of 5. -/
def processFile {V : Type} (extractedText : List Char) (metadata : Metadata)
    (uuids : Nat → String) (embedFn : List Char → V)
    (maxChunks : Nat := 25) : List (EmbeddedChunk V) :=
  let chunks := splitTextIntoChunks extractedText 1000 200 metadata uuids
  let limited := if maxChunks < chunks.length then chunks.take maxChunks else chunks
  processBatches embedFn limited.length limited

theorem processBatches_eq_map {V : Type} (embedFn : List Char → V) :
    ∀ (fuel : Nat) (l : List Chunk), l.length ≤ fuel →
      processBatches embedFn fuel l = l.map (fun ch => ⟨ch, embedFn ch.content, none⟩) := by
  intro fuel
  induction fuel with
  | zero =>
    intro l hl
    have : l = [] := List.length_eq_zero.mp (Nat.le_zero.mp hl)
    subst this
    rfl
  | succ fuel ih =>
    intro l hl
    cases l with
    | nil => rfl
    | cons c rest =>
      have hdrop : ((c :: rest).drop 5).length ≤ fuel := by
        simp only [List.length_drop, List.length_cons]
        simp only [List.length_cons] at hl
        omega
      simp only [processBatches, ih _ hdrop]
      rw [← List.map_append, List.take_append_drop]

/-- Claim C7: `processFile` embeds and returns exactly the first `maxChunks`
chunks of the split text, in their original order; since `take maxChunks` is
the identity on lists of length at most `maxChunks`, documents with at most
`maxChunks` chunks are processed in full. -/
theorem processFile_first_maxChunks {V : Type} (extractedText : List Char)
    (metadata : Metadata) (uuids : Nat → String) (embedFn : List Char → V)
    (maxChunks : Nat) :
    processFile extractedText metadata uuids embedFn maxChunks
      = ((splitTextIntoChunks extractedText 1000 200 metadata uuids).take maxChunks).map
          (fun ch => ⟨ch, embedFn ch.content, none⟩) := by
  dsimp only [processFile]
  by_cases hlen : maxChunks < (splitTextIntoChunks extractedText 1000 200 metadata uuids).length
  · rw [if_pos hlen]
    exact processBatches_eq_map embedFn _ _ (Nat.le_refl _)
  · rw [if_neg hlen]
    rw [List.take_of_length_le (by omega)]
    exact processBatches_eq_map embedFn _ _ (Nat.le_refl _)

/-!  Vector store write path (vectorStore.js:44-149). -/

/-- Result of `createCollection` (vectorStore.js:44-73):
`{success, created, existed}` or `{success: false, error}`. -/
structure CreateCollectionResult where
  success : Bool
  created : Bool := false
  existed : Bool := false
  error : Option String := none
deriving DecidableEq

/-- `createCollection(collectionName)` (vectorStore.js:44-73).
`getCollectionsResult` / `createOutcome` are the outcomes of the awaited
`client.getCollections()` / `client.createCollection(...)`; any rejection is
caught and returned as `{success: false, error}`. -/
def createCollection (getCollectionsResult : Except String (List String))
    (createOutcome : Except String Unit) (collectionName : String) :
    CreateCollectionResult :=
  match getCollectionsResult with
  | .error e => ⟨false, false, false, some e⟩
  | .ok collections =>
    if collectionName ∈ collections then ⟨true, false, true, none⟩
    else
      match createOutcome with
      | .ok _ => ⟨true, true, false, none⟩
      | .error e => ⟨false, false, false, some e⟩

def isHexDig (c : Char) : Bool :=
  ('0' ≤ c && c ≤ '9') || ('a' ≤ c && c ≤ 'f') || ('A' ≤ c && c ≤ 'F')

/-- The Qdrant point-id test
`/^[0-9a-f]{8}-[0-9a-f]{4}-[1-5][0-9a-f]{3}-[89ab][0-9a-f]{3}-[0-9a-f]{12}$/i`
(vectorStore.js:84). -/
def isValidQdrantUuid (id : String) : Bool :=
  match id.data.splitOn '-' with
  | [a, b, c, d, e] =>
    a.length == 8 && a.all isHexDig &&
    b.length == 4 && b.all isHexDig &&
    (match c with
     | c0 :: cs => ('1' ≤ c0 && c0 ≤ '5') && cs.length == 3 && cs.all isHexDig
     | [] => false) &&
    (match d with
     | d0 :: ds =>
       (d0 == '8' || d0 == '9' || d0 == 'a' || d0 == 'b' || d0 == 'A' || d0 == 'B') &&
       ds.length == 3 && ds.all isHexDig
     | [] => false) &&
    e.length == 12 && e.all isHexDig
  | _ => false

/-- `generatePointId(id)` (vectorStore.js:80-94): an id already in Qdrant
uuid format is kept, anything else is replaced by a fresh `uuidv4()`
(supplied here as `freshId`). -/
def generatePointId (freshId : String) (id : String) : String :=
  if isValidQdrantUuid id then id else freshId

/-- A point as sent to `client.upsert` (vectorStore.js:111-126). -/
structure QdrantPoint (V : Type) where
  id : String
  vector : V
  payload : Payload
deriving DecidableEq

/-- The point list built by `addDocuments` (vectorStore.js:111-126): fresh
Qdrant ids where needed (the fresh `uuidv4()` for position `i` is
`freshIds i`), original id and chunk metadata spread into the payload. -/
def addDocumentsPoints {V : Type} (freshIds : Nat → String)
    (documents : List (EmbeddedChunk V)) : List (QdrantPoint V) :=
  documents.mapIdx (fun i doc =>
    { id := generatePointId (freshIds i) doc.chunk.id
      vector := doc.embedding
      payload :=
        { original_id := some doc.chunk.id
          content := doc.chunk.content
          source_file := some doc.chunk.metadata.source_file
          file_type := some doc.chunk.metadata.file_type
          created_at := some doc.chunk.metadata.created_at
          document_id := some doc.chunk.metadata.document_id } })

/-- The sequential batch-upsert loop (vectorStore.js:129-136): batches of
100 points, each awaited with `wait: true`; the first rejected batch makes
the whole call reject.  `upsertOutcome b batch` is the outcome of the
awaited upsert of the `b`th batch.  `fuel` bounds the remaining point count
(structural recursion); the `0` branch is unreachable when
`fuel ≥ points.length`. -/
def upsertBatches {V : Type}
    (upsertOutcome : Nat → List (QdrantPoint V) → Except String Unit) :
    Nat → List (QdrantPoint V) → Nat → Except String Unit
  | _, [], _ => .ok ()
  | 0, _, _ => .ok ()
  | fuel + 1, points@(_ :: _), batchIdx =>
    match upsertOutcome batchIdx (points.take 100) with
    | .error e => .error e
    | .ok _ => upsertBatches upsertOutcome fuel (points.drop 100) (batchIdx + 1)

/-- Result of `addDocuments` (vectorStore.js:139-148). -/
structure AddDocumentsResult where
  success : Bool
  documentsAdded : Option Nat := none
  collectionWasCreated : Option Bool := none
  collectionAlreadyExisted : Option Bool := none
  error : Option String := none
deriving DecidableEq

/-- `addDocuments(collectionName, documents)` (vectorStore.js:102-149):
ensure the collection (throwing, then catching, on failure), build the
points, upsert them in batches; every rejection is caught and returned as
`{success: false, error}` — `addDocuments` itself never rejects. -/
def addDocuments {V : Type} (getCollectionsResult : Except String (List String))
    (createOutcome : Except String Unit)
    (upsertOutcome : Nat → List (QdrantPoint V) → Except String Unit)
    (freshIds : Nat → String) (collectionName : String)
    (documents : List (EmbeddedChunk V)) : AddDocumentsResult :=
  let collectionResult := createCollection getCollectionsResult createOutcome collectionName
  if collectionResult.success = false then
    ⟨false, none, none, none,
      some ("Failed to create collection: " ++
        (match collectionResult.error with | some e => e | none => "undefined"))⟩
  else
    let points := addDocumentsPoints freshIds documents
    match upsertBatches upsertOutcome points.length points 0 with
    | .error e => ⟨false, none, none, none, some e⟩
    | .ok _ =>
      ⟨true, some documents.length, some collectionResult.created,
        some collectionResult.existed, none⟩

/-!  RAG service (the orchestrator, src/unnamed/part_002). -/

/-- The single global collection name (part_002:17). -/
def GLOBAL_COLLECTION_NAME : String := "global_documents"

/-- The relevant fields of a multer upload object. -/
structure UploadedFile where
  originalname : String
  path : String
deriving DecidableEq

/-- A registry entry of the in-memory `indexedDocuments` map
(part_002:88-94). -/
structure IndexedDocInfo where
  documentId : String
  chunksCount : Nat
  filename : String
  fileType : String
  createdAt : String
deriving DecidableEq

/-- The mutable state touched by `indexDocument`: the process-wide
`indexedDocuments` registry (an insertion-ordered map) and — to express the
temporary-file claim — the set of files currently present in the uploads
directory. -/
structure IndexState where
  registry : List (String × IndexedDocInfo)
  tempFiles : List String
deriving DecidableEq

/-- Result object of `indexDocument` (part_002:96-108). -/
structure IndexResult where
  success : Bool
  documentId : Option String := none
  collectionName : Option String := none
  documentCount : Option Nat := none
  filename : Option String := none
  error : Option String := none
deriving DecidableEq

/-- `path.extname(name)`: the substring from the last `'.'` on, except that a
dot at position 0 (a leading-dot name like `.bashrc`) is not an extension.
(`originalname` is a bare file name, so no directory handling is needed.) -/
def pathExtname (name : List Char) : List Char :=
  match lastIdxOf '.' name with
  | none => []
  | some 0 => []
  | some i => name.drop i

/-- The file-type switch of `indexDocument` (part_002:32-57):
`path.extname(file.originalname).toLowerCase().substring(1)`, then mapped to
pdf / docx / image / ppt / text, defaulting to text. -/
def inferFileType (originalname : String) : String :=
  let fileExtension := ((pathExtname originalname.data).map Char.toLower).drop 1
  if fileExtension = "pdf".data then "pdf"
  else if fileExtension = "docx".data ∨ fileExtension = "doc".data then "docx"
  else if fileExtension = "jpg".data ∨ fileExtension = "jpeg".data ∨
      fileExtension = "png".data then "image"
  else if fileExtension = "ppt".data ∨ fileExtension = "pptx".data then "ppt"
  else if fileExtension = "txt".data then "text"
  else "text"

/-- `Map.prototype.set`: replace the entry with this key, or append it. -/
def mapSet (m : List (String × IndexedDocInfo)) (k : String) (v : IndexedDocInfo) :
    List (String × IndexedDocInfo) :=
  match m with
  | [] => [(k, v)]
  | (k1, v1) :: rest => if k1 = k then (k, v) :: rest else (k1, v1) :: mapSet rest k v

theorem mapSet_mem (m : List (String × IndexedDocInfo)) (k : String) (v : IndexedDocInfo) :
    (k, v) ∈ mapSet m k v := by
  induction m with
  | nil => simp [mapSet]
  | cons kv rest ih =>
    rcases kv with ⟨k1, v1⟩
    by_cases hk : k1 = k <;> simp [mapSet, hk, ih]

/-- `indexDocument(file)` (part_002:27-110).  `documentId` is the fresh
`uuidv4()` (part_002:60) and `now` the `new Date().toISOString()` timestamps;
`processFileCall path fileType metadata` is the settled outcome of the awaited
`documentProcessor.processFile(file.path, fileType, metadata)` (which rethrows
internal faults, documentProcessor.js:261-264, so it may reject);
`getCollectionsResult`/`createOutcome`/`upsertOutcome`/`freshIds` feed the
`vectorStore.addDocuments` call and `unlinkOutcome` is the outcome of
`unlinkAsync(file.path)`.  Note (part_002:77): the structured result of
`addDocuments` is bound to `storeResult` but its `success` flag is never
inspected. -/
def indexDocument {V : Type} (st : IndexState) (file : UploadedFile)
    (documentId now : String)
    (processFileCall : String → String → Metadata → Except String (List (EmbeddedChunk V)))
    (getCollectionsResult : Except String (List String))
    (createOutcome : Except String Unit)
    (upsertOutcome : Nat → List (QdrantPoint V) → Except String Unit)
    (freshIds : Nat → String) (unlinkOutcome : Except String Unit) :
    IndexResult × IndexState :=
  let fileType := inferFileType file.originalname
  let metadata : Metadata := ⟨file.originalname, fileType, now, documentId⟩
  match processFileCall file.path fileType metadata with
  | .error e =>
    -- the catch (part_002:103-109): no unlink, no registry entry
    (⟨false, none, none, none, none, some e⟩, st)
  | .ok processedDocuments =>
    let _storeResult := addDocuments getCollectionsResult createOutcome upsertOutcome
      freshIds GLOBAL_COLLECTION_NAME processedDocuments
    let st1 : IndexState :=
      match unlinkOutcome with
      | .ok _ => { st with tempFiles := st.tempFiles.erase file.path }
      | .error _ => st
    let st2 : IndexState :=
      { st1 with registry := (mapSet st1.registry documentId
          ⟨documentId, processedDocuments.length, file.originalname, fileType, now⟩) }
    (⟨true, some documentId, some GLOBAL_COLLECTION_NAME,
        some processedDocuments.length, some file.originalname, none⟩, st2)

/-- `collectionInfo` as returned by `client.getCollection`. -/
structure CollectionInfo where
  vectors_count : Option Nat
deriving DecidableEq

/-- `status.globalCollection` (part_002:207-211).  The field `exists` is a
Lean keyword, so it is called `collectionExists` here. -/
structure GlobalCollectionStatus where
  name : String
  collectionExists : Bool
  vectorCount : Nat
deriving DecidableEq

/-- The `status` object of `getSystemStatus` (part_002:202-214). -/
structure SystemStatus where
  qdrantConnected : Bool
  openaiAvailable : Bool
  globalCollection : GlobalCollectionStatus
  indexedDocuments : List IndexedDocInfo
deriving DecidableEq

/-- Result object of `getSystemStatus` (part_002:202-221). -/
structure StatusResult where
  success : Bool
  status : Option SystemStatus := none
  error : Option String := none
deriving DecidableEq

/-- `getSystemStatus()` (part_002:177-222).  `getCollectionResult` is the
value of the awaited `vectorStore.getCollection` (which catches its own
faults and returns `null`, vectorStore.js:212-219); nothing awaited in the
body can reject, so the outer catch (part_002:215-221) is unreachable. -/
def getSystemStatus (st : IndexState) (qdrantInitialized openaiAvailable : Bool)
    (getCollectionResult : Option CollectionInfo) : StatusResult :=
  let documentCount :=
    match getCollectionResult with
    | some info => (match info.vectors_count with | some n => n | none => 0)
    | none => 0
  let collectionExists :=
    match getCollectionResult with
    | some _ => true
    | none => false
  { success := true
    status := some
      { qdrantConnected := qdrantInitialized
        openaiAvailable := openaiAvailable
        globalCollection :=
          { name := GLOBAL_COLLECTION_NAME
            collectionExists := collectionExists
            vectorCount := documentCount }
        indexedDocuments := st.registry.map (fun kv => kv.2) }
    error := none }

/-!  Claim C1: a concrete indexing run in which the Qdrant upsert rejects. -/

def c1File : UploadedFile := ⟨"doc.txt", "uploads/tmp-doc"⟩

def c1Meta : Metadata := ⟨"doc.txt", "text", "2026-02-03T00:00:00Z", "doc-1"⟩

def c1Docs : List (EmbeddedChunk Unit) := [⟨⟨"chunk-1", "hi".data, c1Meta⟩, (), none⟩]

def c1ProcessOk : String → String → Metadata → Except String (List (EmbeddedChunk Unit)) :=
  fun _ _ _ => .ok c1Docs

def c1Upsert : Nat → List (QdrantPoint Unit) → Except String Unit :=
  fun _ _ => .error "upsert failed"

def c1Fresh : Nat → String := fun _ => "22222222-2222-2222-2222-222222222222"

def c1State : IndexState := ⟨[], ["uploads/tmp-doc"]⟩

/-- Claim C1 (code bug): when the upsert of the processed chunks rejects,
`addDocuments` does return the structured failure `{success: false, error}`
(vectorStore.js:145-148) — but `indexDocument` never reads
`storeResult.success` (part_002:77 binds it and no later line uses it), so
the very same run returns `{success: true, documentId, ...}` to the caller
and even registers the document.  The upsert failure is masked, contradicting
the claim. -/
theorem indexDocument_masks_upsert_failure :
    (addDocuments (Except.ok [GLOBAL_COLLECTION_NAME]) (.ok ()) c1Upsert c1Fresh
        GLOBAL_COLLECTION_NAME c1Docs).success = false
    ∧ (addDocuments (Except.ok [GLOBAL_COLLECTION_NAME]) (.ok ()) c1Upsert c1Fresh
        GLOBAL_COLLECTION_NAME c1Docs).error = some "upsert failed"
    ∧ (indexDocument c1State c1File "doc-1" "2026-02-03T00:00:00Z" c1ProcessOk
        (Except.ok [GLOBAL_COLLECTION_NAME]) (.ok ()) c1Upsert c1Fresh (.ok ())).1
      = ⟨true, some "doc-1", some GLOBAL_COLLECTION_NAME, some 1, some "doc.txt", none⟩ := by
  refine ⟨by decide, by decide, by decide⟩

/-!  Claim C2: concrete indexing runs exercising the temporary-file
deletion. -/

def c2File : UploadedFile := ⟨"notes.txt", "uploads/tmp-2"⟩

def c2State : IndexState := ⟨[], ["uploads/tmp-2"]⟩

def c2ProcessFail : String → String → Metadata → Except String (List (EmbeddedChunk Unit)) :=
  fun _ _ _ => .error "processing failed"

def c2Meta : Metadata := ⟨"notes.txt", "text", "2026-02-03T00:00:00Z", "doc-2"⟩

def c2Docs : List (EmbeddedChunk Unit) := [⟨⟨"chunk-2", "hello".data, c2Meta⟩, (), none⟩]

def c2ProcessOk : String → String → Metadata → Except String (List (EmbeddedChunk Unit)) :=
  fun _ _ _ => .ok c2Docs

def c2Upsert : Nat → List (QdrantPoint Unit) → Except String Unit := fun _ _ => .ok ()

def c2Fresh : Nat → String := fun _ => "33333333-3333-3333-3333-333333333333"

/-- Claim C2 (code bug): the unlink of the uploaded temporary file sits
inside the `try` body *after* processing (part_002:79-85); on the failure
path where `processFile` rejects, the catch (part_002:103-109) returns
`{success: false, error}` without ever deleting the file — it is still
present in the uploads directory afterwards.  (On the success path the file
is deleted.) -/
theorem indexDocument_leaks_temp_file_on_processing_error :
    ((indexDocument c2State c2File "doc-2" "2026-02-03T00:00:00Z" c2ProcessFail
        (Except.ok [GLOBAL_COLLECTION_NAME]) (.ok ()) c2Upsert c2Fresh (.ok ())).1.success
       = false
     ∧ (indexDocument c2State c2File "doc-2" "2026-02-03T00:00:00Z" c2ProcessFail
        (Except.ok [GLOBAL_COLLECTION_NAME]) (.ok ()) c2Upsert c2Fresh (.ok ())).2.tempFiles
       = ["uploads/tmp-2"])
    ∧ (indexDocument c2State c2File "doc-2" "2026-02-03T00:00:00Z" c2ProcessOk
        (Except.ok [GLOBAL_COLLECTION_NAME]) (.ok ()) c2Upsert c2Fresh (.ok ())).2.tempFiles
      = [] := by
  refine ⟨⟨by decide, by decide⟩, by decide⟩

/-- Claim C8: whenever the awaited `processFile` call resolves with `docs`
(the only way `indexDocument` can succeed), `indexDocument` returns
`success: true` with `documentCount = docs.length`, and an immediately
following `status()` reports the document in the `indexedDocuments` snapshot
with `chunksCount = docs.length` — the number of chunks actually
processed. -/
theorem indexDocument_status_roundtrip {V : Type} (st : IndexState)
    (file : UploadedFile) (documentId now : String)
    (processFileCall : String → String → Metadata → Except String (List (EmbeddedChunk V)))
    (getCollectionsResult : Except String (List String))
    (createOutcome : Except String Unit)
    (upsertOutcome : Nat → List (QdrantPoint V) → Except String Unit)
    (freshIds : Nat → String) (unlinkOutcome : Except String Unit)
    (qdrantInitialized openaiAvailable : Bool)
    (getCollectionResult : Option CollectionInfo) (docs : List (EmbeddedChunk V))
    (h : processFileCall file.path (inferFileType file.originalname)
        ⟨file.originalname, inferFileType file.originalname, now, documentId⟩
      = .ok docs) :
    (indexDocument st file documentId now processFileCall getCollectionsResult
        createOutcome upsertOutcome freshIds unlinkOutcome).1.success = true
    ∧ (indexDocument st file documentId now processFileCall getCollectionsResult
        createOutcome upsertOutcome freshIds unlinkOutcome).1.documentCount
      = some docs.length
    ∧ ∃ s, (getSystemStatus (indexDocument st file documentId now processFileCall
          getCollectionsResult createOutcome upsertOutcome freshIds unlinkOutcome).2
          qdrantInitialized openaiAvailable getCollectionResult).status = some s
        ∧ (⟨documentId, docs.length, file.originalname, inferFileType file.originalname,
            now⟩ : IndexedDocInfo) ∈ s.indexedDocuments := by
  cases unlinkOutcome with
  | ok u =>
    refine ⟨by simp [indexDocument, h], by simp [indexDocument, h], ⟨_, rfl, ?_⟩⟩
    simp only [indexDocument, h, getSystemStatus]
    exact List.mem_map_of_mem Prod.snd (mapSet_mem _ _ _)
  | error e =>
    refine ⟨by simp [indexDocument, h], by simp [indexDocument, h], ⟨_, rfl, ?_⟩⟩
    simp only [indexDocument, h, getSystemStatus]
    exact List.mem_map_of_mem Prod.snd (mapSet_mem _ _ _)

def c8File : UploadedFile := ⟨"notes8.txt", "uploads/tmp-8"⟩

def c8Meta : Metadata := ⟨"notes8.txt", "text", "2026-02-03T00:00:00Z", "doc-8"⟩

def c8Docs : List (EmbeddedChunk Unit) :=
  [⟨⟨"chunk-81", "hello".data, c8Meta⟩, (), none⟩,
   ⟨⟨"chunk-82", "world".data, c8Meta⟩, (), none⟩]

def c8Process : String → String → Metadata → Except String (List (EmbeddedChunk Unit)) :=
  fun _ _ _ => .ok c8Docs

def c8State : IndexState := ⟨[], ["uploads/tmp-8"]⟩

def c8Upsert : Nat → List (QdrantPoint Unit) → Except String Unit := fun _ _ => .ok ()

def c8Fresh : Nat → String := fun _ => "44444444-4444-4444-4444-444444444444"

/-- Claim C8, witness at a concrete two-chunk run. -/
theorem indexDocument_status_roundtrip_witness :
    (c8Process c8File.path (inferFileType c8File.originalname)
        ⟨c8File.originalname, inferFileType c8File.originalname,
          "2026-02-03T00:00:00Z", "doc-8"⟩ = .ok c8Docs)
    ∧ ((indexDocument c8State c8File "doc-8" "2026-02-03T00:00:00Z" c8Process
          (Except.ok [GLOBAL_COLLECTION_NAME]) (.ok ()) c8Upsert c8Fresh (.ok ())).1.success
        = true
      ∧ (indexDocument c8State c8File "doc-8" "2026-02-03T00:00:00Z" c8Process
          (Except.ok [GLOBAL_COLLECTION_NAME]) (.ok ()) c8Upsert c8Fresh (.ok ())).1.documentCount
        = some c8Docs.length
      ∧ ∃ s, (getSystemStatus (indexDocument c8State c8File "doc-8" "2026-02-03T00:00:00Z"
            c8Process (Except.ok [GLOBAL_COLLECTION_NAME]) (.ok ()) c8Upsert c8Fresh
            (.ok ())).2 true false (some ⟨some 2⟩)).status = some s
          ∧ (⟨"doc-8", c8Docs.length, c8File.originalname,
              inferFileType c8File.originalname, "2026-02-03T00:00:00Z"⟩ : IndexedDocInfo)
            ∈ s.indexedDocuments) :=
  ⟨rfl, indexDocument_status_roundtrip c8State c8File "doc-8" "2026-02-03T00:00:00Z"
    c8Process (Except.ok [GLOBAL_COLLECTION_NAME]) (.ok ()) c8Upsert c8Fresh (.ok ())
    true false (some ⟨some 2⟩) c8Docs rfl⟩

/-!  Chat path: `generateChatResponse` (part_002:117-171) and the
`POST /api/rag/chat` route (ragRoutes.js:174-204). -/

/-- A context entry returned to the caller (part_002:156-160). -/
structure ChatContext where
  content : List Char
  score : ℚ
  source : String
deriving DecidableEq

/-- Result object of `generateChatResponse` (part_002:152-170). -/
structure ChatResult where
  success : Bool
  query : List Char
  response : List Char
  contexts : List ChatContext
  error : Option String := none
deriving DecidableEq

/-- `generateChatResponse(query)` (part_002:117-171): embed the query
(`embedFn`, in the source `documentProcessor.generateEmbedding`, total —
claim C5), search the global collection with `limit = 5`, `minScore = 0.7`
(the store's `search` returns `[]` on any failure — claim C6 — so the inner
try/catch at part_002:133-146 and the outer catch at part_002:162-170 have
nothing to catch in the model: none of the awaited callees rejects), then
generate a response (`genFn`, in the source
`contentGenerator.generateResponse`, which catches its own faults and falls
back to a mock response). -/
def generateChatResponse {V : Type} (query : List Char) (embedFn : List Char → V)
    (getCollectionsResult : Except String (List String))
    (clientSearch : V → Nat → ℚ → Except String (List ScoredPoint))
    (genFn : List Char → List SearchResult → List Char) : ChatResult :=
  let queryEmbedding := embedFn query
  let limit : Nat := 5
  let minScore : ℚ := 7 / 10
  let searchResults :=
    search getCollectionsResult clientSearch GLOBAL_COLLECTION_NAME queryEmbedding
      limit minScore
  let response := genFn query searchResults
  { success := true
    query := query
    response := response
    contexts := searchResults.map (fun doc =>
      ⟨doc.content, doc.score, jsOrString doc.metadata.source_file "Unknown"⟩) }

/-- An HTTP response of the chat route (status code plus the JSON body
fields it sends). -/
structure ChatHttpResponse where
  status : Nat
  success : Bool
  error : Option String := none
  result : Option ChatResult := none
deriving DecidableEq

/-- `router.post('/rag/chat')` (ragRoutes.js:174-204): destructure `query`
from the JSON body, reject with 400 when it is falsy (`!query` — absent or
the empty string for a string-valued field), otherwise delegate to
`generateChatResponse` and send it with 200 on `success`, 500 otherwise. -/
def chatRoute {V : Type} (bodyQuery : Option (List Char)) (embedFn : List Char → V)
    (getCollectionsResult : Except String (List String))
    (clientSearch : V → Nat → ℚ → Except String (List ScoredPoint))
    (genFn : List Char → List SearchResult → List Char) : ChatHttpResponse :=
  match bodyQuery with
  | none => ⟨400, false, some "Query is required", none⟩
  | some query =>
    if query.length = 0 then ⟨400, false, some "Query is required", none⟩
    else
      let result := generateChatResponse query embedFn getCollectionsResult
        clientSearch genFn
      if result.success then ⟨200, true, none, some result⟩
      else ⟨500, false, result.error, some result⟩

/-- Claim C10: the chat endpoint rejects (400, before any processing) exactly
an absent or empty-string `query`; the whitespace-only query `" "` is truthy,
passes validation, and is processed through the full pipeline — the 200
response carries exactly `generateChatResponse " "`, which embeds the query,
searches the global collection with the query's embedding, and generates the
response from the search results. -/
theorem chatRoute_whitespace_query_processed {V : Type} (embedFn : List Char → V)
    (getCollectionsResult : Except String (List String))
    (clientSearch : V → Nat → ℚ → Except String (List ScoredPoint))
    (genFn : List Char → List SearchResult → List Char) :
    chatRoute (some [' ']) embedFn getCollectionsResult clientSearch genFn
      = ⟨200, true, none,
          some (generateChatResponse [' '] embedFn getCollectionsResult clientSearch genFn)⟩
    ∧ chatRoute none embedFn getCollectionsResult clientSearch genFn
      = ⟨400, false, some "Query is required", none⟩
    ∧ chatRoute (some []) embedFn getCollectionsResult clientSearch genFn
      = ⟨400, false, some "Query is required", none⟩ :=
  ⟨rfl, rfl, rfl⟩
